import Mathlib

/-!
Verification of the hls-playlist-reader core against its specification.

The development shallowly embeds the playlist fetcher state machine
(src/fetcher.ts), the ParsedPlaylist view (src/playlist.ts, shipped inside
helpers.node.ts in this snapshot) and the error classifier variants
(fetcher.ts / fetcher.node.ts).  External collaborators (the m3u8parse
library) are modelled from the specification where noted.
-/

namespace HlsPlaylist

/-- Attributes of one LL-HLS part entry of a media segment. -/
structure PartAttr where
  uri : Option String := none
  duration : Option Rat := none
  deriving DecidableEq, Repr

/-- One media segment of a media playlist.  A missing uri marks a
partial-only trailing segment. -/
structure MediaSegment where
  uri : Option String := none
  duration : Option Rat := none
  parts : Option (List PartAttr) := none
  deriving DecidableEq, Repr

/-- The part-target carrying attribute list (EXT-X-PART-INF). -/
structure PartInfoAttrs where
  partTarget : Option Rat := none
  deriving DecidableEq, Repr

/-- The EXT-X-SERVER-CONTROL attribute list, reduced to the entries the core
reads. -/
structure ServerControlAttrs where
  canBlockReload : Option String := none
  partHoldBack : Option Rat := none
  deriving DecidableEq, Repr

/-- One EXT-X-PRELOAD-HINT attribute list entry. -/
structure PreloadHintAttrs where
  hintType : Option String := none
  uri : Option String := none
  byterangeStart : Option Int := none
  byterangeLength : Option Int := none
  deriving DecidableEq, Repr

/-- A parsed media playlist, reduced to the fields the core consumes
(spec section 3). -/
structure MediaPlaylist where
  media_sequence : Int := 0
  target_duration : Rat := 0
  segments : List MediaSegment := []
  part_info : Option PartInfoAttrs := none
  server_control : Option ServerControlAttrs := none
  preload_hints : Option (List PreloadHintAttrs) := none
  i_frames_only : Bool := false
  ended : Bool := false
  playlistType : Option String := none
  deriving DecidableEq, Repr

/-- Modelled from the spec: m3u8parse MediaSegment.isPartial — a segment
with no uri is a partial-only segment. -/
def MediaSegment.isPartialSegment (s : MediaSegment) : Bool :=
  s.uri.isNone

/-- Modelled from the spec: m3u8parse MediaPlaylist.lastMsn(includePartial)
returns the media-sequence-number of the last full (or last partial when
includePartial) segment; an empty playlist yields media_sequence - 1. -/
def MediaPlaylist.lastMsn (p : MediaPlaylist) (includePartial : Bool) : Int :=
  match p.segments.getLast? with
  | none => p.media_sequence - 1
  | some lastSeg =>
    let msn : Int := p.media_sequence + p.segments.length - 1
    if includePartial then msn
    else if lastSeg.isPartialSegment then msn - 1
    else msn

/-- Modelled from the spec: m3u8parse isLive() is true iff the playlist is
not fully ended and not VOD. -/
def MediaPlaylist.isLive (p : MediaPlaylist) : Bool :=
  !(p.ended || p.playlistType == some "VOD")

/-- Modelled from the spec: the JS String.prototype.toLowerCase builtin on
one character, restricted to the ASCII letters hint types consist of. -/
def lowerChar (c : Char) : Char :=
  if 65 ≤ c.toNat ∧ c.toNat ≤ 90 then Char.ofNat (c.toNat + 32) else c

/-- Modelled from the spec: the JS String.prototype.toLowerCase builtin. -/
def toLowerCase (s : String) : String :=
  String.mk (s.data.map lowerChar)

/-- JavaScript truthiness of an optional number: present and nonzero. -/
def ratTruthy : Option Rat → Bool
  | some v => v != 0
  | none => false

/-- JavaScript truthiness of an optional string: present and nonempty. -/
def strTruthy : Option String → Bool
  | some s => s != ""
  | none => false

/-- JavaScript truthiness of an optional integer: present and nonzero. -/
def intTruthy : Option Int → Bool
  | some v => v != 0
  | none => false

/-- The ParsedPlaylist wrapper state: the (possibly stripped) index and the
strip flag (playlist.ts). -/
structure ParsedPlaylist where
  indexStored : MediaPlaylist
  stripLowLatency : Bool
  deriving DecidableEq, Repr

/-- ParsedPlaylist constructor (playlist.ts).  With noLowLatency the LL
features are removed: part_info, preload hints, the part-hold-back server
control entry; a trailing partial-only segment is popped and every
remaining segment loses its parts. -/
def ParsedPlaylist.make (index : MediaPlaylist) (noLowLatency : Bool) : ParsedPlaylist :=
  if noLowLatency then
    let segs0 := index.segments
    let segs1 :=
      match segs0.getLast? with
      | some lastSeg => if lastSeg.isPartialSegment then segs0.dropLast else segs0
      | none => segs0
    let stripped : MediaPlaylist :=
      { index with
        part_info := none
        preload_hints := none
        server_control := index.server_control.map fun c => { c with partHoldBack := none }
        segments := segs1.map fun s => { s with parts := none } }
    ⟨stripped, true⟩
  else
    ⟨index, false⟩

/-- Getter: the exposed (possibly stripped) index. -/
def ParsedPlaylist.index (p : ParsedPlaylist) : MediaPlaylist :=
  p.indexStored

/-- Getter: the exposed segment list. -/
def ParsedPlaylist.segments (p : ParsedPlaylist) : List MediaSegment :=
  p.indexStored.segments

/-- Getter: part_info?.get(part-target, float). -/
def ParsedPlaylist.partTarget (p : ParsedPlaylist) : Option Rat :=
  p.indexStored.part_info.bind fun info => info.partTarget

/-- The serverControl view returned by the getter. -/
structure ServerControlView where
  canBlockReload : Bool
  partHoldBack : Option Rat
  deriving DecidableEq, Repr

/-- Getter: server control flags. -/
def ParsedPlaylist.serverControl (p : ParsedPlaylist) : ServerControlView :=
  { canBlockReload :=
      match p.indexStored.server_control with
      | some c => c.canBlockReload == some "YES"
      | none => false
    partHoldBack := p.indexStored.server_control.bind fun c => c.partHoldBack }

/-- A recorded byterange of a preload hint. -/
structure ByterangeData where
  offset : Int
  length : Option Int
  deriving DecidableEq, Repr

/-- A recorded preload hint.  The uri is optional because the code reads the
attribute with a non-null assertion that can in fact yield undefined. -/
structure PartData where
  uri : Option String := none
  byterange : Option ByterangeData := none
  deriving DecidableEq, Repr

/-- The preloadHints projection result. -/
structure PreloadHints where
  part : Option PartData := none
  map : Option PartData := none
  deriving DecidableEq, Repr

/-- One iteration of the preloadHints loop.  The condition is embedded with
the source's operator precedence: (has uri AND type part) OR type map. -/
def hintStep (hints : PreloadHints) (attrs : PreloadHintAttrs) : PreloadHints :=
  let lowType := attrs.hintType.map toLowerCase
  if (attrs.uri.isSome && lowType == some "part") || lowType == some "map" then
    let pd : PartData :=
      { uri := attrs.uri
        byterange :=
          match attrs.byterangeStart with
          | some o => some { offset := o, length := attrs.byterangeLength }
          | none => none }
    if lowType == some "part" then { hints with part := some pd }
    else { hints with map := some pd }
  else
    hints

/-- Getter: walk meta.preload_hints in order, later entries overwrite. -/
def ParsedPlaylist.preloadHints (p : ParsedPlaylist) : PreloadHints :=
  (p.indexStored.preload_hints.getD []).foldl hintStep { part := none, map := none }

/-- The { msn, part? } record returned by nextHead(). -/
structure Head where
  msn : Int
  part : Option Nat := none
  deriving DecidableEq, Repr

/-- nextHead() (playlist.ts).  The result is none exactly when the source
faults: reading lastSegment.parts with lastSegment undefined (partTarget set,
not I-frames-only, empty segment list) raises a TypeError. -/
def ParsedPlaylist.nextHead (p : ParsedPlaylist) : Option Head :=
  if ratTruthy p.partTarget && !p.indexStored.i_frames_only then
    match p.segments.getLast? with
    | none => none
    | some lastSegment =>
      if strTruthy lastSegment.uri then
        some { msn := p.indexStored.lastMsn true + 1, part := some 0 }
      else
        some { msn := p.indexStored.lastMsn true
               part := some ((lastSegment.parts.map List.length).getD 0) }
  else if p.segments.isEmpty then
    some { msn := p.indexStored.media_sequence, part := none }
  else
    some { msn := p.indexStored.lastMsn false + 1, part := none }

/-- getUpdateInterval (fetcher.ts): base is part-target when positive and
not I-frames-only; only otherwise is the target duration halved when the
previous poll was unchanged or the playlist has no segments. -/
def getUpdateInterval (p : ParsedPlaylist) (updated : Bool) : Rat :=
  let partTargetPos :=
    match p.partTarget with
    | some v => decide (0 < v)
    | none => false
  if partTargetPos && !p.index.i_frames_only then
    (p.partTarget).getD 0
  else if !updated || p.index.segments.isEmpty then
    p.index.target_duration / 2
  else
    p.index.target_duration

/-- Modelled from the spec (the wording of the update-scheduling claim):
choose the base interval, then halve it whenever the previous poll was
unchanged or the playlist has no segments — also in the part-target case. -/
def specUpdateInterval (p : ParsedPlaylist) (updated : Bool) : Rat :=
  let partTargetPos :=
    match p.partTarget with
    | some v => decide (0 < v)
    | none => false
  let base :=
    if partTargetPos && !p.index.i_frames_only then (p.partTarget).getD 0
    else p.index.target_duration
  if !updated || p.index.segments.isEmpty then base / 2
  else base

/-- An error value thrown inside the fetcher, reduced to the observed
message and the optional synthetic http status. -/
structure UpdateError where
  message : String
  httpStatus : Option Int := none
  deriving DecidableEq, Repr

/-- The error thrown by preprocessIndex on a rejected regression. -/
def rejectedFromPastError : UpdateError :=
  { message := "Rejected update from the past", httpStatus := some 500 }

/-- preprocessIndex (fetcher.ts): with a stored media playlist, a new index
whose lastMsn(true) regresses is rejected — with the counter incremented —
while the rejected counter is below 2; any accepted index resets the
counter to 0.  The pair is (result, new rejected counter). -/
def preprocessIndex (stored : Option MediaPlaylist) (rejected : Nat)
    (index : MediaPlaylist) : Except UpdateError MediaPlaylist × Nat :=
  match stored with
  | some prev =>
    if index.lastMsn true < prev.lastMsn true then
      if rejected < 2 then (Except.error rejectedFromPastError, rejected + 1)
      else (Except.ok index, 0)
    else (Except.ok index, 0)
  | none => (Except.ok index, 0)

/-- One entry of a preprocessIndex run: the stored playlist and rejected
counter before the step, the incoming index, and whether it was accepted. -/
structure MonoEntry where
  prev : MediaPlaylist
  rejected : Nat
  input : MediaPlaylist
  accepted : Bool
  deriving DecidableEq, Repr

/-- The trace of feeding a list of incoming indexes through preprocessIndex,
threading the stored playlist (unchanged on a throw) and the counter. -/
def monoTrace (prev : MediaPlaylist) (rejected : Nat) :
    List MediaPlaylist → List MonoEntry
  | [] => []
  | idx :: rest =>
    match preprocessIndex (some prev) rejected idx with
    | (Except.ok _, r) => ⟨prev, rejected, idx, true⟩ :: monoTrace idx r rest
    | (Except.error _, r) => ⟨prev, rejected, idx, false⟩ :: monoTrace prev r rest

instance {ε α : Type} [DecidableEq ε] [DecidableEq α] : DecidableEq (Except ε α) :=
  fun a b =>
    match a, b with
    | Except.ok x, Except.ok y =>
      if h : x = y then isTrue (by rw [h])
      else isFalse (by intro hc; cases hc; exact h rfl)
    | Except.error x, Except.error y =>
      if h : x = y then isTrue (by rw [h])
      else isFalse (by intro hc; cases hc; exact h rfl)
    | Except.ok _, Except.error _ => isFalse (by intro hc; cases hc)
    | Except.error _, Except.ok _ => isFalse (by intro hc; cases hc)

/-- The fetcher state (fetcher.ts private fields), reduced to what the
primary API methods read and write: the abort reason, the stored index,
the settled value of the cached latest promise, the pending flag, the
stall timer, the rejected counter and two counters of observable work. -/
structure FetcherState where
  aborted : Option String := none
  indexPl : Option MediaPlaylist := none
  latestVal : Option (Except UpdateError MediaPlaylist) := none
  pending : Bool := false
  stallArmed : Bool := false
  rejectedCount : Nat := 0
  updates : Nat := 0
  initialFetches : Nat := 0
  deriving DecidableEq, Repr

/-- The state of a freshly constructed fetcher. -/
def initialFetcherState : FetcherState := {}

/-- canUpdate() (fetcher.ts): not aborted and the stored index is live. -/
def canUpdate (s : FetcherState) : Bool :=
  s.aborted.isNone &&
    (match s.indexPl with
     | some idx => idx.isLive
     | none => false)

/-- cancel(reason) (fetcher.ts): a no-op when already aborted, otherwise
aborts with the given reason. -/
def cancelOp (s : FetcherState) (reason : String) : FetcherState :=
  match s.aborted with
  | some _ => s
  | none => { s with aborted := some reason }

/-- index() (fetcher.ts): when a latest promise is cached, return it
unchanged; otherwise run the initial fetch (its outcome is the parameter),
cache the settled promise and on success store the index (preprocessIndex
accepts unconditionally with no stored index, resetting the counter). -/
def indexOp (s : FetcherState) (fetchResult : Except UpdateError MediaPlaylist) :
    Except UpdateError MediaPlaylist × FetcherState :=
  match s.latestVal with
  | some v => (v, s)
  | none =>
    match fetchResult with
    | Except.ok mp =>
      (Except.ok mp,
        { s with
          latestVal := some (Except.ok mp)
          indexPl := some mp
          rejectedCount := 0
          initialFetches := s.initialFetches + 1 })
    | Except.error e =>
      (Except.error e,
        { s with
          latestVal := some (Except.error e)
          initialFetches := s.initialFetches + 1 })

/-- The synchronous part of update() (fetcher.ts): the three asserts in
source order, then arming the stall timer and marking the update pending. -/
def updateCall (s : FetcherState) (hasTimeout : Bool) : Except String FetcherState :=
  if s.pending then
    Except.error "An update is already being fetched"
  else
    match s.indexPl with
    | none => Except.error "An initial index() must have been sucessfully fetched"
    | some _ =>
      if !canUpdate s then Except.error "Playlist cannot be updated"
      else Except.ok { s with pending := true, stallArmed := hasTimeout }

/-- Settlement of a pending update (the finally block of update() plus the
effects of a completed _updateIndex): count the update, replace the cached
latest promise with the pending one — also when it rejected — clear the
pending flag and the stall timer, and on success store the accepted index.
The second component is the snapshot the settled promise delivers. -/
def updateSettle (s : FetcherState) (res : Except UpdateError MediaPlaylist) :
    FetcherState × Option MediaPlaylist :=
  let base :=
    { s with
      updates := s.updates + 1
      latestVal := some res
      pending := false
      stallArmed := false }
  match res with
  | Except.ok mp => ({ base with indexPl := some mp, rejectedCount := 0 }, some mp)
  | Except.error _ => (base, none)

/-- The externally triggered events of one fetcher. -/
inductive FetcherEv where
  | indexCall (res : Except UpdateError MediaPlaylist)
  | updateReq (hasTimeout : Bool)
  | settleOk (mp : MediaPlaylist)
  | settleErr (e : UpdateError)
  | stallFire
  | cancelCall (reason : String)
  deriving DecidableEq, Repr

/-- One step of the fetcher, returning the next state and the snapshot the
step delivers (if any).  A settleOk step requires the pending flag and an
un-aborted signal: every await of the update chain (wait, watcher.next and
the fetch itself) carries the AbortController signal, so after an abort the
chain rejects instead of resolving with a playlist.  settleErr requires
only the pending flag.  stallFire requires the armed stall timer and runs
cancel with the Error message used at the setTimeout site.  A synchronously
failing update() leaves the state unchanged.  Disabled events are no-ops. -/
def stepFetcher (s : FetcherState) (ev : FetcherEv) : FetcherState × Option MediaPlaylist :=
  match ev with
  | FetcherEv.indexCall res =>
    let r := indexOp s res
    (r.2,
      match s.latestVal, r.1 with
      | none, Except.ok mp => some mp
      | _, _ => none)
  | FetcherEv.updateReq t =>
    match updateCall s t with
    | Except.ok s2 => (s2, none)
    | Except.error _ => (s, none)
  | FetcherEv.settleOk mp =>
    if s.pending && s.aborted.isNone then updateSettle s (Except.ok mp)
    else (s, none)
  | FetcherEv.settleErr e =>
    if s.pending then ((updateSettle s (Except.error e)).1, none)
    else (s, none)
  | FetcherEv.stallFire =>
    if s.stallArmed then (cancelOp s "Index update stalled", none)
    else (s, none)
  | FetcherEv.cancelCall r => (cancelOp s r, none)

/-- Run a sequence of fetcher events. -/
def runFetcher (s : FetcherState) : List FetcherEv → FetcherState
  | [] => s
  | ev :: rest => runFetcher (stepFetcher s ev).1 rest

/-- The snapshots delivered along a sequence of fetcher events. -/
def emitted (s : FetcherState) : List FetcherEv → List MediaPlaylist
  | [] => []
  | ev :: rest =>
    let r := stepFetcher s ev
    match r.2 with
    | some mp => mp :: emitted r.1 rest
    | none => emitted r.1 rest

/-- The state right after the stall timer callback ran. -/
def afterStall (s : FetcherState) : FetcherState :=
  (stepFetcher s FetcherEv.stallFire).1

/-- An error as duck-typed by isRecoverableUpdateError: the isBlocking tag
(strict-equality with true), an optional numeric httpStatus property,
whether it is a ParserError instance, a truthy syscall property, and the
Boom shape with its output status code. -/
structure JsError where
  isBlocking : Bool := false
  httpStatus : Option Int := none
  parserError : Bool := false
  syscall : Bool := false
  isBoom : Bool := false
  boomStatusCode : Int := 0
  deriving DecidableEq, Repr

/-- The static recoverable status code set of HlsPlaylistFetcher. -/
def recoverableCodes : List Int := [404, 408, 425, 429]

/-- isRecoverableUpdateError (fetcher.ts): blocking wins; else consult the
argument status, falling back to the numeric httpStatus property when the
argument is falsy; a truthy status is recoverable iff 5xx or in the static
set; with no truthy status a ParserError is recoverable. -/
def isRecoverableUpdateError (err : JsError) (httpStatusArg : Option Int) : Bool :=
  if err.isBlocking then true
  else
    let httpStatus :=
      if !intTruthy httpStatusArg && err.httpStatus.isSome then err.httpStatus
      else httpStatusArg
    if intTruthy httpStatus then
      let status := httpStatus.getD 0
      (decide (500 ≤ status) && decide (status ≤ 599)) || recoverableCodes.contains status
    else if err.parserError then true
    else false

/-- isRecoverableUpdateError of the node subclass (fetcher.node.ts): any
syscall error is recoverable; a Boom error contributes its output status
code as the argument status. -/
def isRecoverableUpdateErrorNode (err : JsError) : Bool :=
  if err.syscall then true
  else
    isRecoverableUpdateError err (if err.isBoom then some err.boomStatusCode else none)

/-- The http status the classifier consults: a truthy argument status (the
Boom output status in the node variant), else the httpStatus property. -/
def carriedHttpStatus (err : JsError) (httpStatusArg : Option Int) : Option Int :=
  if intTruthy httpStatusArg then httpStatusArg
  else if err.httpStatus.isSome then err.httpStatus
  else httpStatusArg

/-- A live playlist with one full segment and a part target of 2s inside a
target duration of 4s. -/
def c2Playlist : MediaPlaylist :=
  { media_sequence := 0
    target_duration := 4
    segments := [{ uri := some "s0.ts" }]
    part_info := some { partTarget := some 2 } }

/-- The c2Playlist exposed without LL stripping. -/
def c2Parsed : ParsedPlaylist := ParsedPlaylist.make c2Playlist false

/-- A playlist carrying a part target but no segments at all. -/
def c3Playlist : MediaPlaylist :=
  { media_sequence := 7
    target_duration := 1
    segments := []
    part_info := some { partTarget := some 1 } }

/-- A playlist whose only preload hint is a MAP entry without a uri. -/
def c4Playlist : MediaPlaylist :=
  { media_sequence := 0
    target_duration := 1
    preload_hints := some [{ hintType := some "MAP" }] }

/-- A live media playlist used as the initial snapshot. -/
def liveA : MediaPlaylist :=
  { media_sequence := 1, target_duration := 2, segments := [{ uri := some "a.ts" }] }

/-- A live media playlist used as the snapshot of the first update. -/
def liveB : MediaPlaylist :=
  { media_sequence := 2, target_duration := 2, segments := [{ uri := some "b.ts" }] }

/-- The fetcher state after a successful index() and one settled update. -/
def c6AfterUpdate : FetcherState :=
  runFetcher initialFetcherState
    [FetcherEv.indexCall (Except.ok liveA), FetcherEv.updateReq false,
     FetcherEv.settleOk liveB]

/-- C2 counterexample: with a positive part target and an unchanged previous
poll, getUpdateInterval returns the part target un-halved (2), while the
claimed always-halve reading demands 1. -/
theorem update_interval_part_branch_not_halved_cex :
    getUpdateInterval c2Parsed false = 2 ∧
    specUpdateInterval c2Parsed false = 1 ∧
    getUpdateInterval c2Parsed false ≠ specUpdateInterval c2Parsed false := by
  have h1 : getUpdateInterval c2Parsed false = 2 := by decide
  have h2 : specUpdateInterval c2Parsed false = 1 := by
    simp [specUpdateInterval, c2Parsed, c2Playlist, ParsedPlaylist.make,
      ParsedPlaylist.partTarget, ParsedPlaylist.index]
  refine ⟨h1, h2, ?_⟩
  rw [h1, h2]
  norm_num

/-- C3 counterexample: with a part target set and an empty segment list,
nextHead() faults (reads a property of undefined) instead of returning
the media sequence head claimed for every empty playlist. -/
theorem next_head_empty_with_part_target_faults_cex :
    (ParsedPlaylist.make c3Playlist false).nextHead = none ∧
    (none : Option Head) ≠ some { msn := 7, part := none } := by
  decide

/-- C4: evaluating preloadHints at a MAP hint without a uri records an entry
with an undefined uri, because the condition parses as
(has-uri and part) or map. -/
theorem preload_hint_map_without_uri_recorded :
    (ParsedPlaylist.make c4Playlist false).preloadHints =
      { part := none, map := some { uri := none, byterange := none } } := by
  decide

/-- C5 counterexample: the message thrown before the initial index() has the
source spelling sucessfully, not the claimed spelling. -/
theorem update_call_message_spelling_cex :
    updateCall initialFetcherState false =
      Except.error "An initial index() must have been sucessfully fetched" ∧
    "An initial index() must have been sucessfully fetched" ≠
      "An initial index() must have been successfully fetched" := by
  decide

/-- C6 counterexample: the first index() call resolves with the initial
snapshot, but after one settled update() the cached latest promise is the
update promise, so index() resolves with the newer snapshot. -/
theorem index_after_update_returns_new_snapshot_cex :
    (indexOp initialFetcherState (Except.ok liveA)).1 = Except.ok liveA ∧
    (indexOp c6AfterUpdate (Except.ok liveA)).1 = Except.ok liveB ∧
    (Except.ok liveB : Except UpdateError MediaPlaylist) ≠ Except.ok liveA := by
  decide

/-- The condition of the part-target scheduling branch: a positive part
target and not an I-frames-only playlist. -/
def partIntervalCond (p : ParsedPlaylist) : Prop :=
  (∃ v, p.partTarget = some v ∧ 0 < v) ∧ p.index.i_frames_only = false

instance (p : ParsedPlaylist) : Decidable (partIntervalCond p) := by
  unfold partIntervalCond
  infer_instance

/-- C8: stripping removes the part target, the preload hints and the
part-hold-back entry, pops a trailing partial-only segment, clears every
remaining parts list; without the option the playlist is exposed as is. -/
theorem ll_strip_view (mp : MediaPlaylist) :
    (ParsedPlaylist.make mp true).partTarget = none
  ∧ (ParsedPlaylist.make mp true).preloadHints = { part := none, map := none }
  ∧ (ParsedPlaylist.make mp true).serverControl.partHoldBack = none
  ∧ (ParsedPlaylist.make mp true).segments =
      ((match mp.segments.getLast? with
        | some lastSeg =>
          if lastSeg.isPartialSegment then mp.segments.dropLast else mp.segments
        | none => mp.segments).map fun s : MediaSegment => { s with parts := none })
  ∧ ((ParsedPlaylist.make mp true).segments.all fun s => s.parts == none) = true
  ∧ (ParsedPlaylist.make mp false).index = mp := by
  refine ⟨?_, ?_, ?_, ?_, ?_, ?_⟩
  · simp [ParsedPlaylist.make, ParsedPlaylist.partTarget]
  · simp [ParsedPlaylist.make, ParsedPlaylist.preloadHints]
  · cases h : mp.server_control <;>
      simp [ParsedPlaylist.make, ParsedPlaylist.serverControl, h]
  · simp [ParsedPlaylist.make, ParsedPlaylist.segments]
  · simp [ParsedPlaylist.make, ParsedPlaylist.segments, List.all_eq_true]
  · simp [ParsedPlaylist.make, ParsedPlaylist.index]

/-- C2 amended: the part-target branch returns the part target un-halved;
only when that branch is not taken is the target duration halved — exactly
when the previous poll was unchanged or the playlist has no segments. -/
theorem update_interval_characterization (p : ParsedPlaylist) (updated : Bool) :
    (∀ v, p.partTarget = some v → 0 < v → p.index.i_frames_only = false →
        getUpdateInterval p updated = v)
  ∧ (¬partIntervalCond p → (updated = false ∨ p.index.segments = []) →
        getUpdateInterval p updated = p.index.target_duration / 2)
  ∧ (¬partIntervalCond p → updated = true → p.index.segments ≠ [] →
        getUpdateInterval p updated = p.index.target_duration) := by
  have hcond : ∀ v, p.partTarget = some v → ¬partIntervalCond p →
      (decide (0 < v) && !p.index.i_frames_only) = false := by
    intro v hv hnc
    by_cases hif : p.index.i_frames_only
    · simp [hif]
    · have hvle : ¬0 < v := by
        intro hpos
        exact hnc ⟨⟨v, hv, hpos⟩, by simpa using hif⟩
      simp [hvle]
  refine ⟨?_, ?_, ?_⟩
  · intro v hv hpos hif
    simp [getUpdateInterval, hv, hpos, hif]
  · intro hnc hor
    cases hpt : p.partTarget with
    | none =>
      rcases hor with h | h <;> simp [getUpdateInterval, hpt, h]
    | some v =>
      have hfalse := hcond v hpt hnc
      rcases hor with h | h <;> simp [getUpdateInterval, hpt, hfalse, h]
  · intro hnc hup hne
    cases hpt : p.partTarget with
    | none =>
      simp [getUpdateInterval, hpt, hup, hne]
    | some v =>
      have hfalse := hcond v hpt hnc
      simp [getUpdateInterval, hpt, hfalse, hup, hne]

/-- The condition of the low-latency branch of nextHead. -/
def llBranch (p : ParsedPlaylist) : Prop :=
  ratTruthy p.partTarget = true ∧ p.indexStored.i_frames_only = false

instance (p : ParsedPlaylist) : Decidable (llBranch p) := by
  unfold llBranch
  infer_instance

/-- C3 amended: nextHead rolls over past a complete last segment or targets
its next part; an empty playlist yields the media sequence head only
outside the low-latency branch — inside it the code faults; otherwise the
successor of the last full msn is returned. -/
theorem next_head_characterization (p : ParsedPlaylist) :
    (∀ lastSegment, llBranch p → p.segments.getLast? = some lastSegment →
        p.nextHead = some
          (if strTruthy lastSegment.uri then
            { msn := p.index.lastMsn true + 1, part := some 0 }
          else
            { msn := p.index.lastMsn true
              part := some ((lastSegment.parts.map List.length).getD 0) }))
  ∧ (llBranch p → p.segments = [] → p.nextHead = none)
  ∧ (¬llBranch p → p.segments = [] →
        p.nextHead = some { msn := p.index.media_sequence, part := none })
  ∧ (¬llBranch p → p.segments ≠ [] →
        p.nextHead = some { msn := p.index.lastMsn false + 1, part := none }) := by
  have hbr : ∀ hq : llBranch p, (ratTruthy p.partTarget && !p.indexStored.i_frames_only) = true := by
    intro hq
    simp [hq.1, hq.2]
  have hnbr : ∀ hq : ¬llBranch p,
      (ratTruthy p.partTarget && !p.indexStored.i_frames_only) = false := by
    intro hq
    by_cases h1 : ratTruthy p.partTarget
    · by_cases h2 : p.indexStored.i_frames_only
      · simp [h2]
      · exact absurd ⟨h1, by simpa using h2⟩ hq
    · simp [h1]
  refine ⟨?_, ?_, ?_, ?_⟩
  · intro lastSegment hq hlast
    by_cases hu : strTruthy lastSegment.uri <;>
      simp [ParsedPlaylist.nextHead, hbr hq, hlast, hu, ParsedPlaylist.index]
  · intro hq hnil
    simp [ParsedPlaylist.nextHead, hbr hq, hnil]
  · intro hq hnil
    simp [ParsedPlaylist.nextHead, hnbr hq, hnil, ParsedPlaylist.index]
  · intro hq hne
    simp [ParsedPlaylist.nextHead, hnbr hq, hne, ParsedPlaylist.index,
      List.isEmpty_iff]

/-- C5 amended: update() fails synchronously in exactly the three asserted
situations, with the source messages (the second one spelled sucessfully);
in particular a successful call marks the update pending, so a second call
made while it is pending always fails synchronously. -/
theorem update_call_sync_failures (s : FetcherState) (t : Bool) :
    ((∃ m, updateCall s t = Except.error m) ↔
        (s.pending = true ∨ s.indexPl = none ∨ canUpdate s = false))
  ∧ (s.pending = true →
        updateCall s t = Except.error "An update is already being fetched")
  ∧ (s.pending = false → s.indexPl = none →
        updateCall s t =
          Except.error "An initial index() must have been sucessfully fetched")
  ∧ (s.pending = false → s.indexPl ≠ none → canUpdate s = false →
        updateCall s t = Except.error "Playlist cannot be updated")
  ∧ (∀ s2, updateCall s t = Except.ok s2 → s2.pending = true) := by
  by_cases hp : s.pending
  · refine ⟨?_, ?_, ?_, ?_, ?_⟩ <;> simp [updateCall, hp]
  · cases hi : s.indexPl with
    | none =>
      refine ⟨?_, ?_, ?_, ?_, ?_⟩ <;> simp [updateCall, hp, hi]
    | some idx =>
      by_cases hc : canUpdate s
      · refine ⟨?_, ?_, ?_, ?_, ?_⟩ <;> simp [updateCall, hp, hi, hc]
      · refine ⟨?_, ?_, ?_, ?_, ?_⟩ <;>
          simp [updateCall, hp, hi, Bool.eq_false_iff.mpr hc]

/-- C6 amended: index() caches its promise: once a latest value is settled,
every index() call returns it without touching the state; only the first
call runs the initial fetch; a settled update() replaces the cached
promise, so index() then returns the newest snapshot instead of the
first. -/
theorem index_caching_characterization :
    (∀ (s : FetcherState) (v : Except UpdateError MediaPlaylist) res,
        s.latestVal = some v → indexOp s res = (v, s))
  ∧ (∀ (s : FetcherState) res,
        s.latestVal = none →
          (indexOp s res).1 = res ∧ (indexOp s res).2.latestVal = some res ∧
          (indexOp s res).2.initialFetches = s.initialFetches + 1)
  ∧ (∀ (s : FetcherState) (mp : MediaPlaylist),
        s.pending = true → s.aborted = none →
          ((stepFetcher s (FetcherEv.settleOk mp)).1).latestVal =
            some (Except.ok mp)) := by
  refine ⟨?_, ?_, ?_⟩
  · intro s v res hl
    simp [indexOp, hl]
  · intro s res hl
    cases res <;> simp [indexOp, hl]
  · intro s mp hp ha
    simp [stepFetcher, hp, ha, updateSettle]

/-- C7: the classifier accepts exactly blocking-tagged errors, errors whose
consulted nonzero http status is 404, 408, 425, 429 or 5xx, and — status
free — parser errors; the node variant additionally accepts every syscall
error and consults the Boom output status. -/
theorem recoverable_update_error_characterization (err : JsError) :
    (isRecoverableUpdateError err none = true ↔
        err.isBlocking = true
      ∨ (∃ status, err.httpStatus = some status ∧ status ≠ 0 ∧
            (status ∈ recoverableCodes ∨ (500 ≤ status ∧ status ≤ 599)))
      ∨ (intTruthy err.httpStatus = false ∧ err.parserError = true))
  ∧ (isRecoverableUpdateErrorNode err = true ↔
        err.syscall = true
      ∨ err.isBlocking = true
      ∨ (∃ status,
            carriedHttpStatus err
              (if err.isBoom then some err.boomStatusCode else none) = some status ∧
            status ≠ 0 ∧ (status ∈ recoverableCodes ∨ (500 ≤ status ∧ status ≤ 599)))
      ∨ (intTruthy
            (carriedHttpStatus err
              (if err.isBoom then some err.boomStatusCode else none)) = false ∧
          err.parserError = true)) := by
  have hgen : ∀ arg : Option Int,
      isRecoverableUpdateError err arg = true ↔
        err.isBlocking = true
      ∨ (∃ status, carriedHttpStatus err arg = some status ∧ status ≠ 0 ∧
            (status ∈ recoverableCodes ∨ (500 ≤ status ∧ status ≤ 599)))
      ∨ (intTruthy (carriedHttpStatus err arg) = false ∧ err.parserError = true) := by
    intro arg
    have hcarried :
        (if !intTruthy arg && err.httpStatus.isSome then err.httpStatus else arg) =
          carriedHttpStatus err arg := by
      unfold carriedHttpStatus
      by_cases h1 : intTruthy arg
      · simp [h1]
      · cases h2 : err.httpStatus <;> simp [h1, h2]
    by_cases hb : err.isBlocking
    · simp [isRecoverableUpdateError, hb]
    · rw [isRecoverableUpdateError]
      simp only [hb, if_false, hcarried, Bool.false_eq_true, false_or]
      cases hc : carriedHttpStatus err arg with
      | none =>
        by_cases hpe : err.parserError <;>
          simp [intTruthy, hpe]
      | some status =>
        by_cases hz : status = 0
        · subst hz
          by_cases hpe : err.parserError <;>
            simp [intTruthy, hpe]
        · simp [intTruthy, hz, Bool.or_eq_true_iff, Bool.and_eq_true_iff,
            decide_eq_true_eq]
          tauto
  constructor
  · have hbase := hgen none
    have hcn : carriedHttpStatus err none = err.httpStatus := by
      cases h : err.httpStatus <;> simp [carriedHttpStatus, intTruthy, h]
    rw [hcn] at hbase
    exact hbase
  · by_cases hs : err.syscall
    · simp [isRecoverableUpdateErrorNode, hs]
    · rw [isRecoverableUpdateErrorNode]
      simp only [hs, if_false, Bool.false_eq_true, false_or]
      exact hgen (if err.isBoom then some err.boomStatusCode else none)

lemma monoTrace_cons (p : MediaPlaylist) (r : Nat) (x : MediaPlaylist)
    (xs : List MediaPlaylist) :
    monoTrace p r (x :: xs) =
      if x.lastMsn true < p.lastMsn true ∧ r < 2 then
        ⟨p, r, x, false⟩ :: monoTrace p (r + 1) xs
      else
        ⟨p, r, x, true⟩ :: monoTrace x 0 xs := by
  rw [monoTrace]
  unfold preprocessIndex
  by_cases h1 : x.lastMsn true < p.lastMsn true
  · by_cases h2 : r < 2 <;> simp [h1, h2]
  · simp [h1]

lemma monoTrace_head_fields (l : List MediaPlaylist) (p : MediaPlaylist) (r : Nat)
    (e : MonoEntry) (he : (monoTrace p r l)[0]? = some e) :
    e.prev = p ∧ e.rejected = r ∧
      (e.accepted = false ↔ (e.input.lastMsn true < p.lastMsn true ∧ r < 2)) := by
  cases l with
  | nil => simp [monoTrace] at he
  | cons x xs =>
    rw [monoTrace_cons] at he
    by_cases h : (x.lastMsn true < p.lastMsn true ∧ r < 2)
    · rw [if_pos h] at he
      simp at he
      subst he
      simpa using h
    · rw [if_neg h] at he
      simp at he
      subst he
      simpa using h

lemma monoTrace_back :
    ∀ (l : List MediaPlaylist) (p : MediaPlaylist) (r : Nat) (i : Nat) (e : MonoEntry),
      (monoTrace p r l)[i + 1]? = some e →
      ∃ d, (monoTrace p r l)[i]? = some d ∧
        e.rejected = (if d.accepted then 0 else d.rejected + 1) := by
  intro l
  induction l with
  | nil =>
    intro p r i e he
    simp [monoTrace] at he
  | cons x xs ih =>
    intro p r i e he
    rw [monoTrace_cons] at he ⊢
    by_cases h : (x.lastMsn true < p.lastMsn true ∧ r < 2)
    · rw [if_pos h] at he ⊢
      cases i with
      | zero =>
        simp only [List.getElem?_cons_succ] at he
        have hf := monoTrace_head_fields xs p (r + 1) e he
        exact ⟨⟨p, r, x, false⟩, by simp, by simp [hf.2.1]⟩
      | succ j =>
        simp only [List.getElem?_cons_succ] at he ⊢
        exact ih p (r + 1) j e he
    · rw [if_neg h] at he ⊢
      cases i with
      | zero =>
        simp only [List.getElem?_cons_succ] at he
        have hf := monoTrace_head_fields xs x 0 e he
        exact ⟨⟨p, r, x, true⟩, by simp, by simp [hf.2.1]⟩
      | succ j =>
        simp only [List.getElem?_cons_succ] at he ⊢
        exact ih x 0 j e he

lemma monoTrace_accepted_iff :
    ∀ (l : List MediaPlaylist) (p : MediaPlaylist) (r : Nat) (i : Nat) (e : MonoEntry),
      (monoTrace p r l)[i]? = some e →
      (e.accepted = false ↔
        (e.input.lastMsn true < e.prev.lastMsn true ∧ e.rejected < 2)) := by
  intro l
  induction l with
  | nil =>
    intro p r i e he
    simp [monoTrace] at he
  | cons x xs ih =>
    intro p r i e he
    cases i with
    | zero =>
      have hf := monoTrace_head_fields (x :: xs) p r e he
      rw [hf.1, hf.2.1]
      exact hf.2.2
    | succ j =>
      rw [monoTrace_cons] at he
      by_cases h : (x.lastMsn true < p.lastMsn true ∧ r < 2)
      · rw [if_pos h] at he
        simp only [List.getElem?_cons_succ] at he
        exact ih p (r + 1) j e he
      · rw [if_neg h] at he
        simp only [List.getElem?_cons_succ] at he
        exact ih x 0 j e he

lemma monoTrace_two_rejects (l : List MediaPlaylist) (p0 : MediaPlaylist) (i : Nat)
    (e : MonoEntry) (he : (monoTrace p0 0 l)[i]? = some e) (h2 : 2 ≤ e.rejected) :
    ∃ j, i = j + 2 ∧
      (∃ e1, (monoTrace p0 0 l)[j + 1]? = some e1 ∧ e1.accepted = false) ∧
      (∃ e0, (monoTrace p0 0 l)[j]? = some e0 ∧ e0.accepted = false) := by
  match i with
  | 0 =>
    have hf := monoTrace_head_fields l p0 0 e he
    omega
  | Nat.succ j =>
    obtain ⟨d, hd, hrej⟩ := monoTrace_back l p0 0 j e he
    cases hacc : d.accepted with
    | true =>
      rw [hacc, if_pos rfl] at hrej
      omega
    | false =>
      rw [hacc] at hrej
      simp only [Bool.false_eq_true, if_false] at hrej
      have hd1 : 1 ≤ d.rejected := by omega
      match j with
      | 0 =>
        have hf := monoTrace_head_fields l p0 0 d hd
        omega
      | Nat.succ k =>
        obtain ⟨c, hc, hrej2⟩ := monoTrace_back l p0 0 k d hd
        cases hacc2 : c.accepted with
        | true =>
          rw [hacc2, if_pos rfl] at hrej2
          omega
        | false =>
          exact ⟨k, rfl, ⟨d, hd, hacc⟩, ⟨c, hc, hacc2⟩⟩

/-- C1: with a stored media playlist index, preprocessIndex throws the
synthetic 500 "Rejected update from the past" error exactly on a
lastMsn(true) regression while the rejected counter is below 2, each throw
incrementing the counter; otherwise it accepts and resets the counter to 0
(so a third consecutive regression passes); consequently, along any run
starting with counter 0, an accepted regression can only occur right after
two consecutive rejections. -/
theorem preprocess_index_regression_policy :
    (∀ (prev : MediaPlaylist) (rejected : Nat) (index : MediaPlaylist),
        ((preprocessIndex (some prev) rejected index).1 =
            Except.error rejectedFromPastError ↔
          (index.lastMsn true < prev.lastMsn true ∧ rejected < 2))
      ∧ (index.lastMsn true < prev.lastMsn true → rejected < 2 →
          preprocessIndex (some prev) rejected index =
            (Except.error rejectedFromPastError, rejected + 1))
      ∧ (¬(index.lastMsn true < prev.lastMsn true ∧ rejected < 2) →
          preprocessIndex (some prev) rejected index = (Except.ok index, 0)))
  ∧ (∀ (p0 : MediaPlaylist) (l : List MediaPlaylist) (i : Nat) (e : MonoEntry),
      (monoTrace p0 0 l)[i]? = some e →
      e.accepted = true →
      e.input.lastMsn true < e.prev.lastMsn true →
      ∃ j, i = j + 2 ∧
        (∃ e1, (monoTrace p0 0 l)[j + 1]? = some e1 ∧ e1.accepted = false) ∧
        (∃ e0, (monoTrace p0 0 l)[j]? = some e0 ∧ e0.accepted = false)) := by
  constructor
  · intro prev rejected index
    refine ⟨?_, ?_, ?_⟩
    · unfold preprocessIndex
      by_cases h1 : index.lastMsn true < prev.lastMsn true
      · by_cases h2 : rejected < 2 <;> simp [h1, h2]
      · simp [h1]
    · intro h1 h2
      simp [preprocessIndex, h1, h2]
    · intro h
      unfold preprocessIndex
      by_cases h1 : index.lastMsn true < prev.lastMsn true
      · have h2 : ¬rejected < 2 := fun hc => h ⟨h1, hc⟩
        simp [h1, h2]
      · simp [h1]
  · intro p0 l i e he hacc hreg
    have hiff := monoTrace_accepted_iff l p0 0 i e he
    have h2 : 2 ≤ e.rejected := by
      by_contra hlt
      have hfalse : e.accepted = false := hiff.mpr ⟨hreg, by omega⟩
      rw [hacc] at hfalse
      simp at hfalse
    exact monoTrace_two_rejects l p0 i e he h2

/-- A previously stored live playlist whose lastMsn(true) is 5. -/
def regressPrev : MediaPlaylist :=
  { media_sequence := 5, target_duration := 2, segments := [{ uri := some "p.ts" }] }

/-- A regressed incoming playlist whose lastMsn(true) is 0. -/
def regressNew : MediaPlaylist :=
  { media_sequence := 0, target_duration := 2, segments := [{ uri := some "q.ts" }] }

/-- Witness for C1: feeding three regressed indexes rejects the first two
and accepts the third, and the run indeed shows the two rejections right
before the accepted regression. -/
theorem preprocess_index_regression_policy_witness :
    ∃ j, 2 = j + 2 ∧
      (∃ e1, (monoTrace regressPrev 0 [regressNew, regressNew, regressNew])[j + 1]? =
          some e1 ∧ e1.accepted = false) ∧
      (∃ e0, (monoTrace regressPrev 0 [regressNew, regressNew, regressNew])[j]? =
          some e0 ∧ e0.accepted = false) :=
  preprocess_index_regression_policy.2 regressPrev [regressNew, regressNew, regressNew] 2
    ⟨regressPrev, 2, regressNew, true⟩ (by decide) (by decide) (by decide)

lemma stepFetcher_aborted_absorbing (s : FetcherState) (ev : FetcherEv)
    (h : s.aborted ≠ none) : ((stepFetcher s ev).1).aborted = s.aborted := by
  cases ev with
  | indexCall res =>
    cases hl : s.latestVal with
    | some v => simp [stepFetcher, indexOp, hl]
    | none => cases res <;> simp [stepFetcher, indexOp, hl]
  | updateReq t =>
    unfold stepFetcher updateCall
    by_cases hp : s.pending
    · simp [hp]
    · cases hi : s.indexPl with
      | none => simp [hp, hi]
      | some idx =>
        by_cases hc : canUpdate s
        · simp [hp, hi, hc]
        · simp [hp, hi, Bool.eq_false_iff.mpr hc]
  | settleOk mp =>
    have ha : s.aborted.isNone = false := by
      cases hx : s.aborted with
      | none => exact absurd hx h
      | some r => simp
    simp [stepFetcher, ha]
  | settleErr e =>
    by_cases hp : s.pending <;> simp [stepFetcher, hp, updateSettle]
  | stallFire =>
    by_cases hs : s.stallArmed <;>
      cases hx : s.aborted with
      | none => exact absurd hx h
      | some r => simp [stepFetcher, hs, cancelOp, hx]
  | cancelCall r =>
    cases hx : s.aborted with
    | none => exact absurd hx h
    | some r2 => simp [stepFetcher, cancelOp, hx]

lemma stepFetcher_latest_preserved (s : FetcherState) (ev : FetcherEv)
    (h : s.latestVal ≠ none) : ((stepFetcher s ev).1).latestVal ≠ none := by
  cases ev with
  | indexCall res =>
    cases hl : s.latestVal with
    | some v => simp [stepFetcher, indexOp, hl]
    | none => exact absurd hl h
  | updateReq t =>
    unfold stepFetcher updateCall
    by_cases hp : s.pending
    · simpa [hp] using h
    · cases hi : s.indexPl with
      | none => simpa [hp, hi] using h
      | some idx =>
        by_cases hc : canUpdate s
        · simpa [hp, hi, hc] using h
        · simpa [hp, hi, Bool.eq_false_iff.mpr hc] using h
  | settleOk mp =>
    by_cases hg : s.pending && s.aborted.isNone
    · simp [stepFetcher, hg, updateSettle]
    · simpa [stepFetcher, hg] using h
  | settleErr e =>
    by_cases hp : s.pending
    · simp [stepFetcher, hp, updateSettle]
    · simpa [stepFetcher, hp] using h
  | stallFire =>
    by_cases hs : s.stallArmed
    · unfold stepFetcher cancelOp
      cases hx : s.aborted <;> simpa [hs, hx] using h
    · simpa [stepFetcher, hs] using h
  | cancelCall r =>
    unfold stepFetcher cancelOp
    cases hx : s.aborted <;> simpa [hx] using h

lemma stepFetcher_no_emit (s : FetcherState) (ev : FetcherEv)
    (ha : s.aborted ≠ none) (hl : s.latestVal ≠ none) :
    (stepFetcher s ev).2 = none := by
  cases ev with
  | indexCall res =>
    cases hlv : s.latestVal with
    | some v => simp [stepFetcher, hlv]
    | none => exact absurd hlv hl
  | updateReq t => cases h : updateCall s t <;> simp [stepFetcher, h]
  | settleOk mp =>
    have hab : s.aborted.isNone = false := by
      cases hx : s.aborted with
      | none => exact absurd hx ha
      | some r => simp
    simp [stepFetcher, hab]
  | settleErr e => by_cases hp : s.pending <;> simp [stepFetcher, hp]
  | stallFire => by_cases hs : s.stallArmed <;> simp [stepFetcher, hs]
  | cancelCall r => simp [stepFetcher]

lemma runFetcher_cancelled (s : FetcherState) (evs : List FetcherEv)
    (ha : s.aborted ≠ none) (hl : s.latestVal ≠ none) :
    (runFetcher s evs).aborted ≠ none ∧ (runFetcher s evs).latestVal ≠ none ∧
      emitted s evs = [] := by
  induction evs generalizing s with
  | nil => exact ⟨ha, hl, rfl⟩
  | cons ev rest ih =>
    have ha2 : ((stepFetcher s ev).1).aborted ≠ none := by
      rw [stepFetcher_aborted_absorbing s ev ha]
      exact ha
    have hl2 := stepFetcher_latest_preserved s ev hl
    have hrec := ih (stepFetcher s ev).1 ha2 hl2
    refine ⟨hrec.1, hrec.2.1, ?_⟩
    rw [emitted, stepFetcher_no_emit s ev ha hl]
    exact hrec.2.2

lemma updateCall_fails_of_not_canUpdate (s : FetcherState) (t : Bool)
    (h : canUpdate s = false) : ∃ m, updateCall s t = Except.error m := by
  unfold updateCall
  by_cases hp : s.pending
  · exact ⟨"An update is already being fetched", by simp [hp]⟩
  · cases hi : s.indexPl with
    | none =>
      exact ⟨"An initial index() must have been sucessfully fetched", by simp [hp, hi]⟩
    | some idx => exact ⟨"Playlist cannot be updated", by simp [hp, hi, h]⟩

/-- C9: when the armed stall timer fires it cancels the whole fetcher with
the Error "Index update stalled"; from then on the abort is permanent:
canUpdate() is false after any further events, every further update() call
fails synchronously, and no further event delivers a snapshot. -/
theorem stall_timer_cancels_fetcher (s : FetcherState)
    (harm : s.stallArmed = true) (hlat : s.latestVal ≠ none) :
    (s.aborted = none → (afterStall s).aborted = some "Index update stalled")
  ∧ (afterStall s).aborted ≠ none
  ∧ (∀ evs, canUpdate (runFetcher (afterStall s) evs) = false)
  ∧ (∀ evs t, ∃ m, updateCall (runFetcher (afterStall s) evs) t = Except.error m)
  ∧ (∀ evs, emitted (afterStall s) evs = []) := by
  have hstep : afterStall s = cancelOp s "Index update stalled" := by
    simp [afterStall, stepFetcher, harm]
  have hab : (afterStall s).aborted ≠ none := by
    rw [hstep]
    unfold cancelOp
    cases hx : s.aborted <;> simp [hx]
  have hlat2 : (afterStall s).latestVal ≠ none := by
    rw [hstep]
    unfold cancelOp
    cases hx : s.aborted <;> simpa [hx] using hlat
  have hrun := fun evs => runFetcher_cancelled (afterStall s) evs hab hlat2
  refine ⟨?_, hab, ?_, ?_, fun evs => (hrun evs).2.2⟩
  · intro hnone
    rw [hstep]
    simp [cancelOp, hnone]
  · intro evs
    have := (hrun evs).1
    unfold canUpdate
    cases hx : (runFetcher (afterStall s) evs).aborted with
    | none => exact absurd hx this
    | some r => simp
  · intro evs t
    refine updateCall_fails_of_not_canUpdate _ t ?_
    have := (hrun evs).1
    unfold canUpdate
    cases hx : (runFetcher (afterStall s) evs).aborted with
    | none => exact absurd hx this
    | some r => simp

/-- The fetcher state right after a successful index() and an update() call
armed with a timeout. -/
def c9State : FetcherState :=
  runFetcher initialFetcherState
    [FetcherEv.indexCall (Except.ok liveA), FetcherEv.updateReq true]

/-- Witness for C9 at a reachable armed state: after the stall timer fires,
a later update() request leaves canUpdate false and a later ok settlement
delivers nothing. -/
theorem stall_timer_cancels_fetcher_witness :
    canUpdate (runFetcher (afterStall c9State) [FetcherEv.updateReq false]) = false ∧
    emitted (afterStall c9State) [FetcherEv.settleOk liveB] = [] :=
  ⟨(stall_timer_cancels_fetcher c9State (by decide) (by decide)).2.2.1
      [FetcherEv.updateReq false],
   (stall_timer_cancels_fetcher c9State (by decide) (by decide)).2.2.2.2
      [FetcherEv.settleOk liveB]⟩

lemma c10_step (e : UpdateError) (s : FetcherState) (ev : FetcherEv)
    (h1 : s.latestVal = some (Except.error e)) (h2 : s.pending = false)
    (h3 : s.indexPl = none) :
    (stepFetcher s ev).1.latestVal = some (Except.error e)
  ∧ (stepFetcher s ev).1.pending = false
  ∧ (stepFetcher s ev).1.indexPl = none
  ∧ (stepFetcher s ev).1.initialFetches = s.initialFetches
  ∧ (stepFetcher s ev).2 = none := by
  cases ev with
  | indexCall res => simp [stepFetcher, indexOp, h1, h2, h3]
  | updateReq t => simp [stepFetcher, updateCall, h1, h2, h3]
  | settleOk mp => simp [stepFetcher, h1, h2, h3]
  | settleErr e2 => simp [stepFetcher, h1, h2, h3]
  | stallFire =>
    by_cases hs : s.stallArmed <;>
      unfold stepFetcher cancelOp <;>
      cases hx : s.aborted <;>
      simp [hs, hx, h1, h2, h3]
  | cancelCall r =>
    unfold stepFetcher cancelOp
    cases hx : s.aborted <;> simp [hx, h1, h2, h3]

/-- C10: a failed initial fetch leaves the rejected promise cached: from
such a state any sequence of events keeps the cached rejection, performs no
further initial fetch, delivers no snapshot, and every index() call keeps
returning the same rejection; a fresh fetcher reaches such a state by one
failing index() call. -/
theorem initial_failure_cached (e : UpdateError) (s : FetcherState)
    (hl : s.latestVal = some (Except.error e)) (hp : s.pending = false)
    (hi : s.indexPl = none) :
    (∀ evs,
        (runFetcher s evs).latestVal = some (Except.error e)
      ∧ (runFetcher s evs).initialFetches = s.initialFetches
      ∧ (∀ res, (indexOp (runFetcher s evs) res).1 = Except.error e)
      ∧ emitted s evs = [])
  ∧ ((indexOp initialFetcherState (Except.error e)).1 = Except.error e
      ∧ (indexOp initialFetcherState (Except.error e)).2.latestVal =
          some (Except.error e)
      ∧ (indexOp initialFetcherState (Except.error e)).2.pending = false
      ∧ (indexOp initialFetcherState (Except.error e)).2.indexPl = none
      ∧ (indexOp initialFetcherState (Except.error e)).2.initialFetches = 1) := by
  constructor
  · intro evs
    induction evs generalizing s with
    | nil =>
      refine ⟨hl, rfl, ?_, rfl⟩
      intro res
      simp [runFetcher, indexOp, hl]
    | cons ev rest ih =>
      have hstep := c10_step e s ev hl hp hi
      have hrec := ih (stepFetcher s ev).1 hstep.1 hstep.2.1 hstep.2.2.1
      refine ⟨hrec.1, ?_, hrec.2.2.1, ?_⟩
      · rw [runFetcher, hrec.2.1, hstep.2.2.2.1]
      · rw [emitted, hstep.2.2.2.2]
        exact hrec.2.2.2
  · simp [indexOp, initialFetcherState]

/-- The error a failing initial fetch rejects with. -/
def c10Err : UpdateError := { message := "Invalid MIME type: text/html" }

/-- The fetcher state after a first index() call whose fetch failed. -/
def c10State : FetcherState := (indexOp initialFetcherState (Except.error c10Err)).2

/-- Witness for C10: after the failed initial fetch, a further index() call
leaves the cached rejection and the fetch count unchanged. -/
theorem initial_failure_cached_witness :
    (runFetcher c10State [FetcherEv.indexCall (Except.ok liveA)]).latestVal =
      some (Except.error c10Err) ∧
    (runFetcher c10State [FetcherEv.indexCall (Except.ok liveA)]).initialFetches =
      c10State.initialFetches :=
  ⟨((initial_failure_cached c10Err c10State (by decide) (by decide) (by decide)).1
      [FetcherEv.indexCall (Except.ok liveA)]).1,
   ((initial_failure_cached c10Err c10State (by decide) (by decide) (by decide)).1
      [FetcherEv.indexCall (Except.ok liveA)]).2.1⟩

/-- Witness for C2 at a stripped playlist outside the part-target branch:
an unchanged previous poll halves the target duration. -/
theorem update_interval_characterization_witness :
    getUpdateInterval (ParsedPlaylist.make liveA true) false =
      (ParsedPlaylist.make liveA true).index.target_duration / 2 :=
  (update_interval_characterization (ParsedPlaylist.make liveA true) false).2.1
    (by decide) (Or.inl rfl)

/-- Witness for C3 at the stripped empty playlist: nextHead falls back to
the media sequence. -/
theorem next_head_characterization_witness :
    (ParsedPlaylist.make c3Playlist true).nextHead =
      some { msn := (ParsedPlaylist.make c3Playlist true).index.media_sequence
             part := none } :=
  (next_head_characterization (ParsedPlaylist.make c3Playlist true)).2.2.1
    (by decide) (by decide)

/-- The fetcher state while an update() call is pending. -/
def c5PendingState : FetcherState :=
  runFetcher initialFetcherState
    [FetcherEv.indexCall (Except.ok liveA), FetcherEv.updateReq false]

/-- Witness for C5: while an update is pending, a second update() call
fails synchronously with the already-being-fetched message. -/
theorem update_call_sync_failures_witness :
    updateCall c5PendingState false =
      Except.error "An update is already being fetched" :=
  (update_call_sync_failures c5PendingState false).2.1 (by decide)

/-- Witness for C6: after a settled update, index() resolves with the
update snapshot and leaves the state untouched. -/
theorem index_caching_characterization_witness :
    indexOp c6AfterUpdate (Except.ok liveA) = (Except.ok liveB, c6AfterUpdate) :=
  index_caching_characterization.1 c6AfterUpdate (Except.ok liveB) (Except.ok liveA)
    (by decide)

/-- A plain syscall transport error. -/
def c7SyscallError : JsError := { syscall := true }

/-- Witness for C7: the node classifier accepts a syscall error. -/
theorem recoverable_update_error_characterization_witness :
    isRecoverableUpdateErrorNode c7SyscallError = true :=
  (recoverable_update_error_characterization c7SyscallError).2.mpr (Or.inl rfl)

end HlsPlaylist
